import Mathlib

/-!
Verification of the scalable-syslog forwarder against its specification.

The development shallowly embeds the Go sources:
  * the loggregator v2 envelope data model (envelope.proto generated code);
  * the egress TCP syslog writer (adapter/internal/egress/tcp.go);
  * the adapter subscription worker (adapter/internal/ingress subscriber);
  * the counter metric (internal/metricemitter/counter_metric.go);
  * the scheduler-side version filter (scheduler/internal/ingress), whose
    implementation is modelled from the spec and its tests.

Bytes are modelled as natural numbers, machine integers as Int/Nat with
explicit reduction modulo 2^64 where the Go code can wrap, external
effects (dialing, the ingress stream, the metric callback) as explicit
oracles passed to the functions, so every definition is executable.
-/

namespace ScalableSyslog

/-! ## Envelope data model (envelope.proto) -/

/-- Protobuf oneof value for tags: text, integer or decimal. -/
inductive Value
  | text (t : String)
  | integer (i : Int)
  | decimal
deriving DecidableEq, Repr

/-- Go `(*Value).GetText()`: the text when the value is a Text value,
the empty string otherwise (including the nil pointer case that a missing
map key produces). -/
def getText : Option Value → String
  | some (Value.text t) => t
  | _ => ""

/-- Log body: payload bytes and the int32 log type
(`Log_OUT = 0`, `Log_ERR = 1`). -/
structure Log where
  payload : List Nat
  type : Int
deriving DecidableEq, Repr

/-- Protobuf oneof value of a Counter: a delta or a total. -/
inductive CounterValue
  | delta (d : Nat)
  | total (t : Nat)
deriving DecidableEq, Repr

/-- Counter body of an envelope. -/
structure Counter where
  name : String
  value : CounterValue
deriving DecidableEq, Repr

/-- Protobuf oneof body of an envelope. Gauge and Timer payloads are
irrelevant to every claim, so their fields are not modelled. -/
inductive EnvMessage
  | log (l : Log)
  | counter (c : Counter)
  | gauge
  | timer
deriving DecidableEq, Repr

/-- A loggregator v2 envelope. `message = none` models a nil oneof. -/
structure Envelope where
  timestamp : Int
  sourceId : String
  tags : List (String × Value)
  message : Option EnvMessage
deriving DecidableEq, Repr

/-- Go `env.GetLog()`: the Log body when present, nil otherwise. -/
def Envelope.GetLog (e : Envelope) : Option Log :=
  match e.message with
  | some (EnvMessage.log l) => some l
  | _ => none

/-- Go `env.GetTimestamp()`. -/
def Envelope.GetTimestamp (e : Envelope) : Int := e.timestamp

/-- Go `env.Tags[k].GetText()`: map lookup followed by GetText. -/
def Envelope.tagText (e : Envelope) (k : String) : String :=
  getText (e.tags.lookup k)

/-! ## Egress TCP writer (adapter/internal/egress/tcp.go) -/

namespace Egress

/-- Go `loggregator_v2.Log_OUT`. -/
def Log_OUT : Int := 0

/-- Go `loggregator_v2.Log_ERR`. -/
def Log_ERR : Int := 1

/-- Severity `rfc5424.Info` of the external encoder. -/
def rfc5424Info : Int := 6

/-- Severity `rfc5424.Error` of the external encoder. -/
def rfc5424Error : Int := 3

/-- Facility `rfc5424.User` of the external encoder. -/
def rfc5424User : Int := 8

/-- Go `generatePriority`: Info+User for OUT, Error+User for ERR, and the
sentinel -1 for every other log type. -/
def generatePriority (logType : Int) : Int :=
  if logType = Log_OUT then rfc5424Info + rfc5424User
  else if logType = Log_ERR then rfc5424Error + rfc5424User
  else -1

/-- ASCII upper-casing of one character, as Go `strings.ToUpper` acts on
the ASCII source-type tags the system uses. -/
def charUpper (c : Char) : Char :=
  if 97 ≤ c.toNat ∧ c.toNat ≤ 122 then Char.ofNat (c.toNat - 32) else c

/-- Go `strings.ToUpper` restricted to its ASCII action. -/
def stringUpper (s : String) : String :=
  String.mk (s.data.map charUpper)

/-- Go `generateProcessID`: upper-cases the source type and brackets it,
with `/instance` appended when the source instance is nonempty. -/
def generateProcessID (sourceType sourceInstance : String) : String :=
  let st := stringUpper sourceType
  if sourceInstance ≠ "" then "[" ++ st ++ "/" ++ sourceInstance ++ "]"
  else "[" ++ st ++ "]"

/-- Go `removeNulls`: `bytes.Replace(msg, []byte(0), nil, -1)` deletes
every NUL byte. -/
def removeNulls (msg : List Nat) : List Nat :=
  msg.filter (fun b => b ≠ 0)

/-- Go `appendNewline`: appends a newline byte unless the message already
ends with one (`bytes.HasSuffix(msg, "\n")`). -/
def appendNewline (msg : List Nat) : List Nat :=
  if msg.getLast? = some 10 then msg else msg ++ [10]

/-- An rfc5424.Message as the writer fills it: the structured form of one
RFC 5424 frame. -/
structure Message where
  Priority : Int
  Timestamp : Int
  Hostname : String
  AppName : String
  ProcessID : String
  Msg : List Nat
deriving DecidableEq, Repr

/-- Modelled from the spec: the RFC 5424 byte encoder is an external
collaborator (spec §1: "treated as a formatter function"). Per the spec
(§4.1 "Unknown log type ⇒ writer drops the message"), marshalling
validates the PRI value (RFC 5424 allows 0..191) and fails without
producing a frame when it is out of range, which is exactly the sentinel
-1 that `generatePriority` yields for unknown log types. -/
def MarshalBinary (m : Message) : Option Message :=
  if 0 ≤ m.Priority ∧ m.Priority ≤ 191 then some m else none

/-- An open TCP connection, identified by an id; `closeErr` is the result
its `Close()` would return. -/
structure Conn where
  id : Nat
  closeErr : Option String
deriving DecidableEq, Repr

/-- One reaction of the environment to a dial attempt: the dial result,
and whether the owning context is observed done right after a failure. -/
structure DialStep where
  result : Except String Conn
  ctxDone : Bool
deriving Repr

/-- Result of the `connect` loop. -/
inductive ConnectResult
  | ok (c : Conn)
  | closedErr
  | dialErr (e : String)
  | fuelOut
deriving DecidableEq, Repr

/-- Observable trace of a `connect` run: how many dials were attempted and
the duration, in seconds, of each backoff sleep taken. -/
structure ConnectTrace where
  dials : Nat
  sleeps : List Nat
deriving DecidableEq, Repr

/-- Backoff duration of the connect loop, in seconds (`time.Minute`). -/
def backoffSeconds : Nat := 60

/-- Go `TCPWriter.connect`: loop that checks `closed`, dials, and on a
dial failure returns the dial error when the context is done, otherwise
sleeps the fixed backoff and retries. The list of dial steps is the
environment oracle; exhausting it models a still-running loop. -/
def connectLoop (closed : Bool) : List DialStep → ConnectResult × ConnectTrace
  | [] =>
    if closed then (ConnectResult.closedErr, ⟨0, []⟩)
    else (ConnectResult.fuelOut, ⟨0, []⟩)
  | s :: rest =>
    if closed then (ConnectResult.closedErr, ⟨0, []⟩)
    else
      match s.result with
      | Except.ok c => (ConnectResult.ok c, ⟨1, []⟩)
      | Except.error e =>
        if s.ctxDone then (ConnectResult.dialErr e, ⟨1, []⟩)
        else
          let r := connectLoop closed rest
          (r.1, ⟨r.2.dials + 1, backoffSeconds :: r.2.sleeps⟩)

/-- State of a TCPWriter: its binding data, the owned connection (or
none), the closed flag, and the egress counter value. -/
structure TCPWriter where
  hostname : String
  appID : String
  conn : Option Conn
  closed : Bool
  egressCount : Nat
deriving DecidableEq, Repr

/-- Go `TCPWriter.connClose`: closes and forgets the connection if one is
open, returning its close error; a no-op returning nil otherwise. -/
def TCPWriter.connClose (w : TCPWriter) : Option String × TCPWriter :=
  match w.conn with
  | some c => (c.closeErr, { w with conn := none })
  | none => (none, w)

/-- Go `TCPWriter.Close`: sets the closed flag, then closes the
connection. -/
def TCPWriter.Close (w : TCPWriter) : Option String × TCPWriter :=
  TCPWriter.connClose { w with closed := true }

/-- Go `TCPWriter.connection`: reuses the open connection, otherwise runs
the connect loop and stores the connection it yields. -/
def TCPWriter.connection (w : TCPWriter) (steps : List DialStep) :
    ConnectResult × TCPWriter × ConnectTrace :=
  match w.conn with
  | some c => (ConnectResult.ok c, w, ⟨0, []⟩)
  | none =>
    match connectLoop w.closed steps with
    | (ConnectResult.ok c, t) => (ConnectResult.ok c, { w with conn := some c }, t)
    | (r, t) => (r, w, t)

/-- Outcome of one `Write` call. -/
inductive WriteOutcome
  | ok
  | closedConn
  | dialFailed (e : String)
  | marshalFailed
  | ioFailed
  | fuelOut
deriving DecidableEq, Repr

/-- Observable effects of one `Write` call: the complete frames written to
the connection, the dials attempted, and the backoff sleeps taken. -/
structure WriteEffects where
  frames : List Message
  dials : Nat
  sleeps : List Nat
deriving DecidableEq, Repr

/-- Go `TCPWriter.Write`: nil for non-Log envelopes; otherwise builds the
rfc5424.Message, obtains a connection (dialing lazily), and writes the
marshalled frame. On a marshal or I/O failure the connection is closed
and the error returned. `steps` is the dial oracle, `ioOk` the outcome of
the socket write. -/
def TCPWriter.Write (w : TCPWriter) (env : Envelope) (steps : List DialStep)
    (ioOk : Bool) : WriteOutcome × TCPWriter × WriteEffects :=
  match env.GetLog with
  | none => (WriteOutcome.ok, w, ⟨[], 0, []⟩)
  | some l =>
    let msg : Message :=
      { Priority := generatePriority l.type
        Timestamp := env.GetTimestamp
        Hostname := w.hostname
        AppName := w.appID
        ProcessID := generateProcessID (env.tagText "source_type")
          (env.tagText "source_instance")
        Msg := appendNewline (removeNulls l.payload) }
    match w.connection steps with
    | (ConnectResult.ok _, w1, t) =>
      match MarshalBinary msg with
      | none =>
        (WriteOutcome.marshalFailed, (w1.connClose).2, ⟨[], t.dials, t.sleeps⟩)
      | some frame =>
        if ioOk then
          (WriteOutcome.ok, { w1 with egressCount := w1.egressCount + 1 },
            ⟨[frame], t.dials, t.sleeps⟩)
        else
          (WriteOutcome.ioFailed, (w1.connClose).2, ⟨[], t.dials, t.sleeps⟩)
    | (ConnectResult.closedErr, w1, t) =>
      (WriteOutcome.closedConn, w1, ⟨[], t.dials, t.sleeps⟩)
    | (ConnectResult.dialErr e, w1, t) =>
      (WriteOutcome.dialFailed e, w1, ⟨[], t.dials, t.sleeps⟩)
    | (ConnectResult.fuelOut, w1, t) =>
      (WriteOutcome.fuelOut, w1, ⟨[], t.dials, t.sleeps⟩)

end Egress

/-! ## Subscription worker (adapter/internal/ingress Subscriber) -/

namespace Ingress

/-- Batch threshold of the read/write loop: `count >= 1000`. -/
def ingressBatchLimit : Nat := 1000

/-- Emission interval of the read/write loop in nanoseconds
(`5 * time.Second`). -/
def fiveSecondsNs : Nat := 5 * 1000000000

/-- State threaded through `readWriteLoop`: the running envelope count,
the time of the last counter emission, and the increments emitted so far
on the `ingress` counter. -/
structure RWState where
  count : Nat
  lastEmitted : Nat
  emissions : List Nat
deriving DecidableEq, Repr

/-- One iteration body of `Subscriber.readWriteLoop` after a successful
`Recv` at time `now`: non-Log envelopes are skipped; a Log envelope is
counted, the counter is emitted and reset when the count reaches the
batch limit or more than five seconds passed since the last emission, and
the envelope is handed to the writer. Returns the new state and the
envelopes passed to `writer.Write`. -/
def rwProcess (now : Nat) (env : Envelope) (s : RWState) :
    RWState × List Envelope :=
  match env.GetLog with
  | none => (s, [])
  | some _ =>
    let c := s.count + 1
    if c ≥ ingressBatchLimit ∨ now - s.lastEmitted > fiveSecondsNs then
      ({ count := 0, lastEmitted := now, emissions := s.emissions ++ [c] }, [env])
    else
      ({ s with count := c }, [env])

/-- One observation of the loop environment: the value of the atomic
`unsubscribe` flag at the check, and the outcome `Recv` would produce
(an error, or an envelope tagged with the current time). -/
structure RecvEvent where
  flag : Int
  recv : Except String (Nat × Envelope)

/-- How `readWriteLoop` returned. -/
inductive LoopExit
  | normal
  | recvErr (e : String)
  | fuelOut
deriving DecidableEq, Repr

/-- Go `Subscriber.readWriteLoop`: checks the unsubscribe flag, then
`Recv`s; an error is returned, a non-Log envelope skipped, a Log envelope
counted and written. The third component is the number of `Recv` calls
performed. -/
def readWriteLoop : List RecvEvent → RWState → LoopExit × RWState × Nat
  | [], s => (LoopExit.fuelOut, s, 0)
  | ev :: rest, s =>
    if ev.flag > 0 then (LoopExit.normal, s, 0)
    else
      match ev.recv with
      | Except.error e => (LoopExit.recvErr e, s, 1)
      | Except.ok (now, env) =>
        let s1 := (rwProcess now env s).1
        let r := readWriteLoop rest s1
        (r.1, r.2.1, r.2.2 + 1)

/-- Environment oracle for one run of `attemptConnectAndRead`: the result
of `connector.Connect`, the result of `client.Receiver`, the start time
(used as the initial `lastEmitted`), and the loop events. -/
structure Attempt where
  connect : Except String Unit
  receiver : Except String Unit
  start : Nat
  events : List RecvEvent

/-- Go `Subscriber.attemptConnectAndRead`: `some b` means the attempt
finished and `b` says whether the outer loop continues; `none` means the
loop is still running (event fuel exhausted). A `Connect` error yields
false (no retry); a `Receiver` error or a `Recv` error yields true; a nil
return of the read/write loop yields false. -/
def attemptConnectAndRead (a : Attempt) : Option Bool :=
  match a.connect with
  | Except.error _ => some false
  | Except.ok _ =>
    match a.receiver with
    | Except.error _ => some true
    | Except.ok _ =>
      match (readWriteLoop a.events ⟨0, a.start, []⟩).1 with
      | LoopExit.normal => some false
      | LoopExit.recvErr _ => some true
      | LoopExit.fuelOut => none

/-- Go `Subscriber.connectAndRead`: repeats attempts while they return
true. `some n` means the worker exited after `n` attempts (each attempt
calls `Connect` exactly once); `none` means it is still running. -/
def connectAndRead : List Attempt → Option Nat
  | [] => none
  | a :: rest =>
    match attemptConnectAndRead a with
    | some false => some 1
    | some true => Option.map (fun n => n + 1) (connectAndRead rest)
    | none => none

/-- Go `buildShardId`: plain concatenation of app id, hostname and
drain. -/
def buildShardId (appId hostname drain : String) : String :=
  appId ++ hostname ++ drain

end Ingress

/-! ## Counter metric (internal/metricemitter/counter_metric.go) -/

namespace Metricemitter

/-- Modulus of Go uint64 arithmetic. -/
def u64 : Nat := 2 ^ 64

/-- State of a CounterMetric: its identity and the pending uint64
delta. -/
structure CounterMetric where
  name : String
  sourceID : String
  tags : List (String × Value)
  delta : Nat
deriving DecidableEq, Repr

/-- Go `CounterMetric.Increment`: `atomic.AddUint64(&delta, c)`. -/
def CounterMetric.Increment (m : CounterMetric) (c : Nat) : CounterMetric :=
  { m with delta := (m.delta + c) % u64 }

/-- Go `CounterMetric.GetDelta`: atomic load of the delta. -/
def CounterMetric.GetDelta (m : CounterMetric) : Nat := m.delta

/-- Go `CounterMetric.toEnvelope`: wraps a delta in a counter envelope
stamped `now`. -/
def CounterMetric.toEnvelope (m : CounterMetric) (now : Int) (delta : Nat) :
    Envelope :=
  { timestamp := now
    sourceId := m.sourceID
    tags := m.tags
    message := some (EnvMessage.counter ⟨m.name, CounterValue.delta delta⟩) }

/-- Go `CounterMetric.SendWith`: swaps the delta out (to zero), hands it
to the callback inside an envelope, and on a callback error adds the
swapped-out delta back and returns the error. The run is sequential: the
claim explicitly excludes concurrent increments. Returns the error, the
new metric state, and the envelopes passed to the callback. -/
def CounterMetric.SendWith (m : CounterMetric) (now : Int)
    (fn : Envelope → Except String Unit) :
    Option String × CounterMetric × List Envelope :=
  let d := m.delta
  let m1 : CounterMetric := { m with delta := 0 }
  let env := m1.toEnvelope now d
  match fn env with
  | Except.error e => (some e, { m1 with delta := (m1.delta + d) % u64 }, [env])
  | Except.ok _ => (none, m1, [env])

end Metricemitter

/-! ## Version filter (scheduler/internal/ingress) -/

namespace SchedulerIngress

/-- Splits a character list at the first occurrence of `c`: the part
before it, and `some` rest after it when `c` occurs. -/
def splitFirst (c : Char) : List Char → List Char × Option (List Char)
  | [] => ([], none)
  | x :: xs =>
    if x = c then ([], some xs)
    else
      let r := splitFirst c xs
      (x :: r.1, r.2)

/-- Splits a character list on every occurrence of `c`. -/
def splitAll (c : Char) : List Char → List (List Char)
  | [] => [[]]
  | x :: xs =>
    if x = c then [] :: splitAll c xs
    else
      match splitAll c xs with
      | [] => [[x]]
      | g :: gs => (x :: g) :: gs

/-- Modelled from the spec: the missing `scheduler/internal/ingress` URL
handling uses Go `net/url.Parse`; the failure mode its tests exercise is
a URL whose scheme component is empty (the raw URL begins with a colon,
as in `://some-bad-url/`), which `url.Parse` rejects with "missing
protocol scheme". -/
def parseOk (u : String) : Bool :=
  match u.data with
  | ':' :: _ => false
  | _ => true

/-- Raw query of a URL: everything after the first question mark, empty
when there is none (Go `URL.RawQuery`). -/
def rawQuery (u : String) : List Char :=
  ((splitFirst '?' u.data).2).getD []

/-- Helper of `queryGet` over the split parameter list. -/
def queryGetGo : List (List Char) → List Char → List Char
  | [], _ => []
  | p :: ps, k =>
    let r := splitFirst '=' p
    if r.1 = k then r.2.getD [] else queryGetGo ps k

/-- Go `url.Values.Get`: first value bound to the key among the
ampersand-separated `key=value` parameters, empty when absent. -/
def queryGet (q : List Char) (k : List Char) : List Char :=
  queryGetGo (splitAll '&' q) k

/-- Modelled from the spec: a drain URL is kept by the version filter iff
it parses and its query carries `drain-version=2.0` (spec §4.6:
"removes any drain URL that fails to parse or lacks drain-version=2.0 in
its query"). -/
def drainKept (u : String) : Bool :=
  parseOk u && queryGet (rawQuery u) ("drain-version".data) = ("2.0".data)

/-- One app record of AppBindings: its drain URLs and hostname. -/
structure Binding where
  Drains : List String
  Hostname : String
deriving DecidableEq, Repr

/-- AppBindings: a finite map from app id to its binding, with unique
keys, modelled as an association list. -/
abbrev AppBindings : Type := List (String × Binding)

/-- Modelled from the spec: `VersionFilter.FetchBindings` on a fetched
AppBindings value (spec §4.6: the filter "removes any drain URL that
fails to parse or lacks drain-version=2.0 in its query; an app whose
only drains are all removed disappears from the result", the rule §9
instructs implementers to adopt; the repository VersionFilter tests
expect exactly this behaviour). -/
def versionFilter (input : AppBindings) : AppBindings :=
  input.filterMap fun ab =>
    let ds := ab.2.Drains.filter (fun d => drainKept d)
    if ds.isEmpty then none
    else some (ab.1, { Drains := ds, Hostname := ab.2.Hostname })

end SchedulerIngress

/-! ## Concrete sample values used to instantiate the theorems -/

/-- A sample open connection. -/
def sampleConn : Egress.Conn := ⟨1, none⟩

/-- A sample writer owning an open connection. -/
def sampleWriter : Egress.TCPWriter := ⟨"H", "A", some sampleConn, false, 0⟩

/-- A sample writer with no connection yet. -/
def sampleWriterNoConn : Egress.TCPWriter := ⟨"H", "A", none, false, 0⟩

/-- A sample OUT log envelope. -/
def sampleLogEnv : Envelope :=
  { timestamp := 0
    sourceId := "A"
    tags := [("source_type", Value.text "APP"), ("source_instance", Value.text "3")]
    message := some (EnvMessage.log ⟨[104, 105], 0⟩) }

/-- A sample envelope whose log type is neither OUT nor ERR. -/
def sampleBadTypeEnv : Envelope :=
  { sampleLogEnv with message := some (EnvMessage.log ⟨[104, 105], 7⟩) }

/-- A sample non-Log (counter) envelope. -/
def sampleCounterEnv : Envelope :=
  { sampleLogEnv with message := some (EnvMessage.counter ⟨"c", CounterValue.delta 1⟩) }

/-- The AppBindings input of the repository VersionFilter test for
malformed drain URLs. -/
def testAppBindings : SchedulerIngress.AppBindings :=
  [("app-id-with-malformed-drains",
    { Drains := ["://some-bad-url/?drain-version=2.0",
                 "syslog://example.com:1234/?drain-version=2.0",
                 "syslog://example.net:4321/"],
      Hostname := "we.dont.care" }),
   ("app-id-with-single-malformed-drain",
    { Drains := ["://another-bad-url/?drain-version=2.0"],
      Hostname := "we.dont.care" })]

end ScalableSyslog

/-! ## Theorems -/

namespace ScalableSyslog

/-- The modelled version filter reproduces the repository VersionFilter
test for malformed drain URLs: the malformed and versionless drains are
removed, and the app left with no drains disappears. -/
theorem versionFilter_matches_repo_test :
    SchedulerIngress.versionFilter testAppBindings =
      [("app-id-with-malformed-drains",
        { Drains := ["syslog://example.com:1234/?drain-version=2.0"],
          Hostname := "we.dont.care" })] := by
  decide

/-- C8: for every log payload, the message placed in the RFC 5424 frame,
computed as appendNewline (removeNulls payload), ends with the newline
byte and contains no NUL byte. -/
theorem C8_msg_ends_newline_no_nul (payload : List Nat) :
    (Egress.appendNewline (Egress.removeNulls payload)).getLast? = some 10 ∧
    0 ∉ Egress.appendNewline (Egress.removeNulls payload) := by
  have hnot : 0 ∉ Egress.removeNulls payload := by
    intro h
    have h2 := List.mem_filter.mp h
    simp at h2
  constructor
  · unfold Egress.appendNewline
    by_cases h : (Egress.removeNulls payload).getLast? = some 10
    · simp [h]
    · simp only [h, if_false]
      exact List.getLast?_concat _
  · unfold Egress.appendNewline
    by_cases h : (Egress.removeNulls payload).getLast? = some 10
    · simp only [h, if_true]
      exact hnot
    · simp only [h, if_false]
      intro hmem
      rcases List.mem_append.mp hmem with h1 | h1
      · exact hnot h1
      · simp at h1

/-- C6: for every envelope whose body is not a Log, Write returns nil,
emits no frame, performs no dial, sleeps never, and leaves the writer
completely unchanged. -/
theorem C6_nonlog_write_noop (w : Egress.TCPWriter) (env : Envelope)
    (steps : List Egress.DialStep) (ioOk : Bool) (h : env.GetLog = none) :
    w.Write env steps ioOk = (Egress.WriteOutcome.ok, w, ⟨[], 0, []⟩) := by
  unfold Egress.TCPWriter.Write
  rw [h]

/-- Witness for C6 at a concrete counter envelope and writer. -/
theorem C6_nonlog_write_noop_witness :
    sampleWriter.Write sampleCounterEnv [] true =
      (Egress.WriteOutcome.ok, sampleWriter, ⟨[], 0, []⟩) :=
  C6_nonlog_write_noop sampleWriter sampleCounterEnv [] true rfl

/-- C1: for every envelope whose body is a Log with a type other than OUT
and ERR, Write emits no RFC 5424 frame and writes nothing to the
connection (marshalling rejects the sentinel priority -1 before any
byte reaches the socket), and the call does not report success. -/
theorem C1_unknown_log_type_dropped (w : Egress.TCPWriter) (env : Envelope)
    (steps : List Egress.DialStep) (ioOk : Bool) (l : Log)
    (hl : env.GetLog = some l) (hOut : l.type ≠ Egress.Log_OUT)
    (hErr : l.type ≠ Egress.Log_ERR) :
    (w.Write env steps ioOk).2.2.frames = [] ∧
    (w.Write env steps ioOk).1 ≠ Egress.WriteOutcome.ok := by
  have hp : Egress.generatePriority l.type = -1 := by
    unfold Egress.generatePriority
    rw [if_neg hOut, if_neg hErr]
  unfold Egress.TCPWriter.Write
  rw [hl]
  rcases hc : w.connection steps with ⟨r, w1, t⟩
  cases r with
  | ok c =>
    have hm : Egress.MarshalBinary
        { Priority := Egress.generatePriority l.type
          Timestamp := env.GetTimestamp
          Hostname := w.hostname
          AppName := w.appID
          ProcessID := Egress.generateProcessID (env.tagText "source_type")
            (env.tagText "source_instance")
          Msg := Egress.appendNewline (Egress.removeNulls l.payload) } = none := by
      unfold Egress.MarshalBinary
      rw [hp]
      simp
    simp [hc, hm]
  | closedErr => simp [hc]
  | dialErr e => simp [hc]
  | fuelOut => simp [hc]

/-- Witness for C1 at a concrete log envelope of type 7. -/
theorem C1_unknown_log_type_dropped_witness :
    (sampleWriter.Write sampleBadTypeEnv [] true).2.2.frames = [] ∧
    (sampleWriter.Write sampleBadTypeEnv [] true).1 ≠ Egress.WriteOutcome.ok :=
  C1_unknown_log_type_dropped sampleWriter sampleBadTypeEnv [] true
    ⟨[104, 105], 7⟩ rfl (by decide) (by decide)

/-- Close leaves the writer marked closed with no connection, whatever
state it was in. -/
theorem close_state (w : Egress.TCPWriter) :
    (w.Close).2 = { w with closed := true, conn := none } := by
  unfold Egress.TCPWriter.Close Egress.TCPWriter.connClose
  cases hw : w.conn <;> simp [hw]

/-- After Close, a Write of a Log envelope reports the closed connection
without dialing or writing and leaves the state unchanged. -/
theorem write_after_close (w : Egress.TCPWriter) (env : Envelope)
    (steps : List Egress.DialStep) (ioOk : Bool) (l : Log)
    (hl : env.GetLog = some l) :
    (w.Close).2.Write env steps ioOk =
      (Egress.WriteOutcome.closedConn, (w.Close).2, ⟨[], 0, []⟩) := by
  rw [close_state]
  unfold Egress.TCPWriter.Write
  rw [hl]
  have hc : Egress.TCPWriter.connection { w with closed := true, conn := none } steps =
      (Egress.ConnectResult.closedErr, { w with closed := true, conn := none }, ⟨0, []⟩) := by
    unfold Egress.TCPWriter.connection
    cases steps <;> simp [Egress.connectLoop]
  rw [hc]

/-- C2 (amended): after Close the writer is closed with no connection;
every subsequent Write of a Log envelope returns the closed error and
writes nothing; a Write of a non-Log envelope returns nil and writes
nothing (the documented silent success of the writer on non-Log envelopes);
and a second Close is a no-op that leaves the state unchanged and
returns nil. -/
theorem C2_close_semantics (w : Egress.TCPWriter) (env : Envelope)
    (steps : List Egress.DialStep) (ioOk : Bool) :
    ((w.Close).2.closed = true ∧ (w.Close).2.conn = none) ∧
    (∀ l, env.GetLog = some l →
      (w.Close).2.Write env steps ioOk =
        (Egress.WriteOutcome.closedConn, (w.Close).2, ⟨[], 0, []⟩)) ∧
    (env.GetLog = none →
      (w.Close).2.Write env steps ioOk =
        (Egress.WriteOutcome.ok, (w.Close).2, ⟨[], 0, []⟩)) ∧
    ((w.Close).2.Close = (none, (w.Close).2)) := by
  refine ⟨⟨by rw [close_state], by rw [close_state]⟩, ?_, ?_, ?_⟩
  · intro l hl
    exact write_after_close w env steps ioOk l hl
  · intro h
    unfold Egress.TCPWriter.Write
    rw [h]
  · rw [close_state]
    unfold Egress.TCPWriter.Close Egress.TCPWriter.connClose
    simp

/-- Witness for the amended C2 at a concrete writer with an open
connection, a log envelope and a counter envelope. -/
theorem C2_close_semantics_witness :
    (sampleWriter.Close).2.Write sampleLogEnv [] true =
      (Egress.WriteOutcome.closedConn, (sampleWriter.Close).2, ⟨[], 0, []⟩) ∧
    (sampleWriter.Close).2.Close = (none, (sampleWriter.Close).2) :=
  ⟨(C2_close_semantics sampleWriter sampleLogEnv [] true).2.1 ⟨[104, 105], 0⟩ rfl,
   (C2_close_semantics sampleWriter sampleLogEnv [] true).2.2.2⟩

/-- Counterexample to C2 as stated: after Close, a Write of a counter
(non-Log) envelope returns nil, not a closed error. -/
theorem C2_counterexample :
    ((sampleWriter.Close).2.Write sampleCounterEnv [] true).1 =
        Egress.WriteOutcome.ok ∧
    Egress.WriteOutcome.ok ≠ Egress.WriteOutcome.closedConn := by
  constructor
  · rfl
  · decide

/-- C5: the connect loop returns an error immediately and without dialing
once Close was called; on a dial failure it returns the dial error
immediately when the owning context is done, and otherwise sleeps the
fixed 60-second backoff once and retries the dial. -/
theorem C5_connect_retry_policy (s : Egress.DialStep)
    (rest : List Egress.DialStep) (e : String) :
    (∀ steps : List Egress.DialStep,
      Egress.connectLoop true steps = (Egress.ConnectResult.closedErr, ⟨0, []⟩)) ∧
    (s.result = Except.error e → s.ctxDone = true →
      Egress.connectLoop false (s :: rest) =
        (Egress.ConnectResult.dialErr e, ⟨1, []⟩)) ∧
    (s.result = Except.error e → s.ctxDone = false →
      Egress.connectLoop false (s :: rest) =
        ((Egress.connectLoop false rest).1,
          ⟨(Egress.connectLoop false rest).2.dials + 1,
            Egress.backoffSeconds :: (Egress.connectLoop false rest).2.sleeps⟩)) ∧
    Egress.backoffSeconds = 60 := by
  refine ⟨?_, ?_, ?_, rfl⟩
  · intro steps
    cases steps <;> simp [Egress.connectLoop]
  · intro hr hd
    simp [Egress.connectLoop, hr, hd]
  · intro hr hd
    simp [Egress.connectLoop, hr, hd]

/-- Witness for C5 at concrete failing dial steps, with the context done
and not done. -/
theorem C5_connect_retry_policy_witness :
    Egress.connectLoop false [⟨Except.error "boom", true⟩] =
      (Egress.ConnectResult.dialErr "boom", ⟨1, []⟩) ∧
    Egress.connectLoop false [⟨Except.error "boom", false⟩] =
      ((Egress.connectLoop false []).1,
        ⟨(Egress.connectLoop false []).2.dials + 1,
          Egress.backoffSeconds :: (Egress.connectLoop false []).2.sleeps⟩) :=
  ⟨(C5_connect_retry_policy ⟨Except.error "boom", true⟩ [] "boom").2.1 rfl rfl,
   (C5_connect_retry_policy ⟨Except.error "boom", false⟩ [] "boom").2.2.1 rfl rfl⟩

/-- C3: processing one received envelope increments the `ingress` counter
by the batched count exactly when the count since the last emission
reaches 1,000 or more than 5 seconds have elapsed since the last
emission (whichever comes first), resetting the batch; a non-Log
envelope is not counted and triggers no emission check; and since the
count resets on every emission, reaching the threshold means exactly
1,000 envelopes were counted. -/
theorem C3_ingress_counter_emission (now : Nat) (env : Envelope)
    (s : Ingress.RWState) :
    (env.GetLog = none → Ingress.rwProcess now env s = (s, [])) ∧
    (∀ l, env.GetLog = some l →
      s.count + 1 ≥ Ingress.ingressBatchLimit ∨
        now - s.lastEmitted > Ingress.fiveSecondsNs →
      Ingress.rwProcess now env s =
        (⟨0, now, s.emissions ++ [s.count + 1]⟩, [env])) ∧
    (∀ l, env.GetLog = some l →
      ¬(s.count + 1 ≥ Ingress.ingressBatchLimit ∨
        now - s.lastEmitted > Ingress.fiveSecondsNs) →
      Ingress.rwProcess now env s =
        (⟨s.count + 1, s.lastEmitted, s.emissions⟩, [env])) ∧
    (s.count < Ingress.ingressBatchLimit →
      (s.count + 1 ≥ Ingress.ingressBatchLimit ↔
        s.count + 1 = Ingress.ingressBatchLimit)) ∧
    Ingress.ingressBatchLimit = 1000 ∧
    Ingress.fiveSecondsNs = 5 * 1000000000 := by
  refine ⟨?_, ?_, ?_, ?_, rfl, rfl⟩
  · intro h
    unfold Ingress.rwProcess
    rw [h]
  · intro l hl hcond
    unfold Ingress.rwProcess
    rw [hl, if_pos hcond]
  · intro l hl hcond
    unfold Ingress.rwProcess
    rw [hl, if_neg hcond]
  · intro hlt
    omega

/-- Witness for C3: a counter envelope is ignored, and a log envelope
arriving more than five seconds after the last emission flushes the
batch of one. -/
theorem C3_ingress_counter_emission_witness :
    Ingress.rwProcess 0 sampleCounterEnv ⟨0, 0, []⟩ = (⟨0, 0, []⟩, []) ∧
    Ingress.rwProcess 6000000000 sampleLogEnv ⟨0, 0, []⟩ =
      (⟨0, 6000000000, [1]⟩, [sampleLogEnv]) :=
  ⟨(C3_ingress_counter_emission 0 sampleCounterEnv ⟨0, 0, []⟩).1 rfl,
   (C3_ingress_counter_emission 6000000000 sampleLogEnv ⟨0, 0, []⟩).2.1
     ⟨[104, 105], 0⟩ rfl (Or.inr (by decide))⟩

/-- C9: once the atomic unsubscribe flag is positive, the next flag check
makes readWriteLoop return nil with no further Recv performed, the
attempt reports that the outer loop must not continue, and the worker
exits after this single attempt, whatever later attempts the environment
would have offered. -/
theorem C9_stop_flag_halts_loop (ev : Ingress.RecvEvent)
    (rest : List Ingress.RecvEvent) (s : Ingress.RWState)
    (a : Ingress.Attempt) (restA : List Ingress.Attempt)
    (hflag : ev.flag > 0) (hc : a.connect = Except.ok ())
    (hr : a.receiver = Except.ok ()) (hev : a.events = ev :: rest) :
    Ingress.readWriteLoop (ev :: rest) s = (Ingress.LoopExit.normal, s, 0) ∧
    Ingress.attemptConnectAndRead a = some false ∧
    Ingress.connectAndRead (a :: restA) = some 1 := by
  have h1 : ∀ st : Ingress.RWState,
      Ingress.readWriteLoop (ev :: rest) st = (Ingress.LoopExit.normal, st, 0) := by
    intro st
    unfold Ingress.readWriteLoop
    rw [if_pos hflag]
  have h2 : Ingress.attemptConnectAndRead a = some false := by
    unfold Ingress.attemptConnectAndRead
    rw [hc, hr, hev, h1]
  refine ⟨h1 s, h2, ?_⟩
  unfold Ingress.connectAndRead
  rw [h2]

/-- Witness for C9 at a concrete stopped subscription. -/
theorem C9_stop_flag_halts_loop_witness :
    Ingress.readWriteLoop [⟨1, Except.error "x"⟩] ⟨0, 0, []⟩ =
      (Ingress.LoopExit.normal, ⟨0, 0, []⟩, 0) ∧
    Ingress.attemptConnectAndRead
      ⟨Except.ok (), Except.ok (), 0, [⟨1, Except.error "x"⟩]⟩ = some false ∧
    Ingress.connectAndRead
      [⟨Except.ok (), Except.ok (), 0, [⟨1, Except.error "x"⟩]⟩] = some 1 :=
  C9_stop_flag_halts_loop ⟨1, Except.error "x"⟩ [] ⟨0, 0, []⟩
    ⟨Except.ok (), Except.ok (), 0, [⟨1, Except.error "x"⟩]⟩ []
    (by decide) rfl rfl rfl

/-- C4: a Connect error ends the worker: the failing attempt returns
false, and however many earlier attempts continued the session, the
outer connectAndRead loop terminates right after the failing attempt, so
exactly those Connect calls happened and none follow. -/
theorem C4_connect_error_not_retried (pre : List Ingress.Attempt)
    (a : Ingress.Attempt) (rest : List Ingress.Attempt) (e : String)
    (hpre : ∀ b ∈ pre, Ingress.attemptConnectAndRead b = some true)
    (ha : a.connect = Except.error e) :
    Ingress.attemptConnectAndRead a = some false ∧
    Ingress.connectAndRead (pre ++ a :: rest) = some (pre.length + 1) := by
  have h1 : Ingress.attemptConnectAndRead a = some false := by
    unfold Ingress.attemptConnectAndRead
    rw [ha]
  refine ⟨h1, ?_⟩
  induction pre with
  | nil =>
    rw [List.nil_append]
    unfold Ingress.connectAndRead
    rw [h1]
    rfl
  | cons b bs ih =>
    have hb : Ingress.attemptConnectAndRead b = some true :=
      hpre b (List.mem_cons_self b bs)
    have hbs : ∀ c ∈ bs, Ingress.attemptConnectAndRead c = some true := by
      intro c hcMem
      exact hpre c (List.mem_cons_of_mem b hcMem)
    have ihr := ih hbs
    rw [List.cons_append]
    unfold Ingress.connectAndRead
    rw [hb, ihr]
    simp [List.length_cons]

/-- Witness for C4: one continuing attempt (Recv error) followed by an
attempt whose Connect fails; the worker stops after the second Connect. -/
theorem C4_connect_error_not_retried_witness :
    Ingress.attemptConnectAndRead
      ⟨Except.error "bad url", Except.ok (), 0, []⟩ = some false ∧
    Ingress.connectAndRead
      [⟨Except.ok (), Except.ok (), 0, [⟨0, Except.error "recv failed"⟩]⟩,
       ⟨Except.error "bad url", Except.ok (), 0, []⟩] = some 2 :=
  C4_connect_error_not_retried
    [⟨Except.ok (), Except.ok (), 0, [⟨0, Except.error "recv failed"⟩]⟩]
    ⟨Except.error "bad url", Except.ok (), 0, []⟩ [] "bad url"
    (by
      intro b hb
      rw [List.mem_singleton] at hb
      subst hb
      rfl)
    rfl

/-- C10: SendWith hands the callback exactly one envelope carrying the
current delta as a counter delta and zeroes the stored delta; when the
callback succeeds the error is nil and the delta stays zero, and when it
fails SendWith returns that error and restores the swapped-out delta, so
GetDelta afterwards equals its value before the call. -/
theorem C10_sendwith_delta_atomic (m : Metricemitter.CounterMetric)
    (now : Int) (fn : Envelope → Except String Unit)
    (hd : m.delta < Metricemitter.u64) :
    ((m.SendWith now fn).2.2 =
      [Metricemitter.CounterMetric.toEnvelope { m with delta := 0 } now m.GetDelta]) ∧
    ((Metricemitter.CounterMetric.toEnvelope { m with delta := 0 } now
        m.GetDelta).message =
      some (EnvMessage.counter ⟨m.name, CounterValue.delta m.GetDelta⟩)) ∧
    (fn (Metricemitter.CounterMetric.toEnvelope { m with delta := 0 } now
        m.GetDelta) = Except.ok () →
      m.SendWith now fn = (none, { m with delta := 0 },
        [Metricemitter.CounterMetric.toEnvelope { m with delta := 0 } now
          m.GetDelta])) ∧
    (∀ e, fn (Metricemitter.CounterMetric.toEnvelope { m with delta := 0 } now
        m.GetDelta) = Except.error e →
      (m.SendWith now fn).1 = some e ∧
      ((m.SendWith now fn).2.1).GetDelta = m.GetDelta) := by
  have heq : m.SendWith now fn =
      match fn (Metricemitter.CounterMetric.toEnvelope { m with delta := 0 }
          now m.delta) with
      | Except.error e =>
        (some e, { m with delta := (0 + m.delta) % Metricemitter.u64 },
          [Metricemitter.CounterMetric.toEnvelope { m with delta := 0 } now
            m.delta])
      | Except.ok _ =>
        (none, { m with delta := 0 },
          [Metricemitter.CounterMetric.toEnvelope { m with delta := 0 } now
            m.delta]) := rfl
  unfold Metricemitter.CounterMetric.GetDelta
  cases hfn : fn (Metricemitter.CounterMetric.toEnvelope { m with delta := 0 }
      now m.delta) with
  | error e =>
    have h22 : m.SendWith now fn =
        (some e, { m with delta := (0 + m.delta) % Metricemitter.u64 },
          [Metricemitter.CounterMetric.toEnvelope { m with delta := 0 } now
            m.delta]) := by
      rw [heq, hfn]
    refine ⟨by rw [h22], rfl, ?_, ?_⟩
    · intro hok
      exact Except.noConfusion hok
    · intro e2 he2
      injection he2 with hee
      subst hee
      rw [h22]
      refine ⟨rfl, ?_⟩
      show (0 + m.delta) % Metricemitter.u64 = m.delta
      rw [Nat.zero_add]
      exact Nat.mod_eq_of_lt hd
  | ok u =>
    cases u
    have h22 : m.SendWith now fn =
        (none, { m with delta := 0 },
          [Metricemitter.CounterMetric.toEnvelope { m with delta := 0 } now
            m.delta]) := by
      rw [heq, hfn]
    refine ⟨by rw [h22], rfl, ?_, ?_⟩
    · intro hok
      exact h22
    · intro e2 he2
      exact Except.noConfusion he2

/-- Witness for C10 at a concrete metric with delta 7 and a failing
callback: the error is propagated and the delta restored. -/
theorem C10_sendwith_delta_atomic_witness :
    ((⟨"ingress", "src", [], 7⟩ : Metricemitter.CounterMetric).SendWith 0
        (fun _ => Except.error "nope")).1 = some "nope" ∧
    (((⟨"ingress", "src", [], 7⟩ : Metricemitter.CounterMetric).SendWith 0
        (fun _ => Except.error "nope")).2.1).GetDelta = 7 :=
  (C10_sendwith_delta_atomic ⟨"ingress", "src", [], 7⟩ 0
    (fun _ => Except.error "nope") (by decide)).2.2.2 "nope" rfl

/-- C7: the output of the version filter has, for every surviving app, a
nonempty drain list all of whose URLs parse and carry
drain-version=2.0; and when every drain of an input app is removed
(including apps whose only drain was unparseable), that app id is absent
from the output. -/
theorem C7_version_filter_output (input : SchedulerIngress.AppBindings)
    (hkeys : (input.map Prod.fst).Nodup) :
    (∀ p ∈ SchedulerIngress.versionFilter input,
      p.2.Drains ≠ [] ∧
      ∀ d ∈ p.2.Drains,
        SchedulerIngress.parseOk d = true ∧
        SchedulerIngress.queryGet (SchedulerIngress.rawQuery d)
          ("drain-version".data) = ("2.0".data)) ∧
    (∀ p ∈ input,
      p.2.Drains.filter (fun d => SchedulerIngress.drainKept d) = [] →
      ∀ b, (p.1, b) ∉ SchedulerIngress.versionFilter input) := by
  have hmem : ∀ p ∈ SchedulerIngress.versionFilter input,
      ∃ ab ∈ input,
        ab.2.Drains.filter (fun d => SchedulerIngress.drainKept d) ≠ [] ∧
        p.1 = ab.1 ∧
        p.2.Drains = ab.2.Drains.filter (fun d => SchedulerIngress.drainKept d) := by
    intro p hp
    unfold SchedulerIngress.versionFilter at hp
    rcases List.mem_filterMap.mp hp with ⟨ab, habIn, habEq⟩
    by_cases hds : (ab.2.Drains.filter (fun d => SchedulerIngress.drainKept d)).isEmpty
    · rw [if_pos hds] at habEq
      exact absurd habEq (by simp)
    · rw [if_neg hds] at habEq
      injection habEq with hpe
      subst hpe
      exact ⟨ab, habIn, by simpa [List.isEmpty_iff] using hds, rfl, rfl⟩
  constructor
  · intro p hp
    rcases hmem p hp with ⟨ab, _, hne, _, hdr⟩
    refine ⟨by rw [hdr]; exact hne, ?_⟩
    intro d hd
    rw [hdr] at hd
    have hkept := List.of_mem_filter hd
    have hkb : SchedulerIngress.drainKept d = true := hkept
    unfold SchedulerIngress.drainKept at hkb
    rcases Bool.and_eq_true_iff.mp hkb with ⟨hk1, hk2⟩
    exact ⟨hk1, of_decide_eq_true hk2⟩
  · intro p hpIn hempty b hb
    rcases hmem (p.1, b) hb with ⟨ab, habIn, hne, hkey, _⟩
    have hab : p = ab := by
      apply List.inj_on_of_nodup_map hkeys hpIn habIn
      exact hkey
    rw [← hab] at hne
    exact hne hempty

/-- Witness for C7 at the repository VersionFilter test input: the app
whose only drain is malformed is absent from the filter output. -/
theorem C7_version_filter_output_witness :
    ("app-id-with-single-malformed-drain",
      ({ Drains := ["://another-bad-url/?drain-version=2.0"],
         Hostname := "we.dont.care" } : SchedulerIngress.Binding)) ∉
      SchedulerIngress.versionFilter testAppBindings :=
  (C7_version_filter_output testAppBindings (by decide)).2
    ("app-id-with-single-malformed-drain",
      { Drains := ["://another-bad-url/?drain-version=2.0"],
        Hostname := "we.dont.care" })
    (by decide) (by decide) _

end ScalableSyslog
